import Mathlib

/-!
Verification development for the baspy repository (C-H-Simpson/baspy).

Shallow embedding of the two source files:
  * `_get_cubes.py` — dispatch of catalogue records to a dataset-family
    backend (`baspy.cmip5.get_cubes` / `baspy.happi.get_cubes`), and the
    single-cube wrapper `get_cube`;
  * `experimental/gen_data_citation.py` — generation of CMIP6 data
    citations from CERA XML metadata.

Python exceptions are modelled with `Except String`; the text of an error
carries the exception's message (string quotes that appear inside Python
message literals are omitted).  The two backend modules are not part of
this repository's sources, so the backend `get_cubes` functions are taken
as parameters; network access (`requests.get`) composed with XML parsing
(`ET.fromstring`) is likewise taken as a parameter producing the parsed
document root.
-/

namespace Baspy

/-- A row of a baspy catalogue as used by `_get_cubes.py`: only the
`Path` column is inspected by the dispatch code, so only it is modelled.
A `DataFrame` is modelled as the list of its rows (a pandas `Series`
input is first converted by the source into a one-row `DataFrame`, so
the list-of-rows view covers both cases). -/
structure CubeRow where
  Path : String
deriving DecidableEq, Repr

/-- Splitting a character list at every occurrence of the separator;
the executable core of `re.split('/', path)`. -/
def splitOnChar (sep : Char) : List Char → List (List Char)
  | [] => [[]]
  | c :: rest =>
    if c = sep then [] :: splitOnChar sep rest
    else
      match splitOnChar sep rest with
      | [] => [[c]]
      | h :: t => (c :: h) :: t

/-- `re.split('/', s)`: the slash-delimited segments of `s` (for the plain
one-character pattern `'/'` this is ordinary string splitting). -/
def splitSlash (s : String) : List String :=
  (splitOnChar '/' s.toList).map (fun l => String.mk l)

/-- `get_cubes` from `_get_cubes.py`.

```python
df0       = filt_cat.iloc[0]
path0     = df0['Path']
split_str = re.split('/', path0)
if ('cmip5' in split_str):
    cubes = baspy.cmip5.get_cubes(filt_cat, constraints=constraints, verbose=verbose)
if ('happi' in split_str):
    cubes = baspy.happi.get_cubes(filt_cat, constraints=constraints, verbose=verbose)
return cubes
```

`cmip5_get_cubes` and `happi_get_cubes` are the backend functions (their
modules are outside this repository); each receives the same
`(filt_cat, constraints, verbose)` arguments the source forwards.
`.iloc[0]` on an empty frame raises `IndexError`; `return cubes` with no
branch taken raises `NameError` (the local `cubes` was never assigned). -/
def get_cubes {γ α : Type} (cmip5_get_cubes happi_get_cubes : List CubeRow → Option γ → Bool → α)
    (filt_cat : List CubeRow) (constraints : Option γ := none) (verbose : Bool := true) :
    Except String α :=
  match filt_cat with
  | [] => .error "IndexError: single positional indexer is out-of-bounds"
  | df0 :: _ =>
    let path0 := df0.Path
    let split_str := splitSlash path0
    let cubes : Except String α :=
      .error "NameError: name cubes is not defined"
    let cubes :=
      if "cmip5" ∈ split_str then
        .ok (cmip5_get_cubes filt_cat constraints verbose)
      else cubes
    let cubes :=
      if "happi" ∈ split_str then
        .ok (happi_get_cubes filt_cat constraints verbose)
      else cubes
    cubes

/-- `get_cube` from `_get_cubes.py`.

```python
if (len(filt_cat.index) == 1):
    cube = get_cubes(filt_cat, constraints=constraints, verbose=verbose)
    cube = cube[0]
if (len(filt_cat) > 1):
    raise ValueError("Error: more than one cube present.  Try 'get_cubes' instead")
if (len(filt_cat) == 0):
    raise ValueError("Error: no cubes specified in catalogue.")
return cube
```

Here the backends return a sequence (list) of cubes so that `cube[0]`
indexes it; `cube[0]` on an empty sequence raises `IndexError`. -/
def get_cube {γ β : Type} (cmip5_get_cubes happi_get_cubes : List CubeRow → Option γ → Bool → List β)
    (filt_cat : List CubeRow) (constraints : Option γ := none) (verbose : Bool := true) :
    Except String β :=
  if filt_cat.length = 1 then
    match get_cubes cmip5_get_cubes happi_get_cubes filt_cat constraints verbose with
    | .error e => .error e
    | .ok cube =>
      match cube[0]? with
      | none => .error "IndexError: list index out of range"
      | some c => .ok c
  else if filt_cat.length > 1 then
    .error "Error: more than one cube present.  Try get_cubes instead"
  else
    .error "Error: no cubes specified in catalogue."

/-! ## `experimental/gen_data_citation.py` -/

/-- A parsed XML element, as produced by `xml.etree.ElementTree.fromstring`:
a tag, an attribute dictionary, the element text, and child elements. -/
inductive XmlElem where
  | mk (tag : String) (attrib : List (String × String)) (text : String)
      (children : List XmlElem)

def XmlElem.tag : XmlElem → String
  | .mk t _ _ _ => t

def XmlElem.attrib : XmlElem → List (String × String)
  | .mk _ a _ _ => a

def XmlElem.text : XmlElem → String
  | .mk _ _ t _ => t

def XmlElem.children : XmlElem → List XmlElem
  | .mk _ _ _ c => c

/-- Python's substring containment `needle in hay` on strings. -/
def substrB (needle hay : String) : Bool :=
  hay.toList.tails.any (fun t => needle.toList.isPrefixOf t)

/-- The mutable local state threaded through the metadata-extraction loop of
`generate_citation`: `doi`, `publisher`, `publicationYear` start as `""` and
`givenNames`, `familyNames` start as `[]`. -/
structure ExtractState where
  doi : String
  publisher : String
  publicationYear : String
  givenNames : List String
  familyNames : List String
deriving DecidableEq, Repr

/-- The inner loop body over the children `x` of one `creator` element:

```python
if "givenName" in x.tag:
    givenNames.append(x.text)
elif "familyName" in x.tag:
    familyNames.append(x.text)
``` -/
def creatorStep (st : ExtractState) (x : XmlElem) : ExtractState :=
  if substrB "givenName" x.tag then
    { st with givenNames := st.givenNames ++ [x.text] }
  else if substrB "familyName" x.tag then
    { st with familyNames := st.familyNames ++ [x.text] }
  else st

/-- The first condition of the dispatch on a child of the document root:
`"identifier" in child.tag and child.attrib["identifierType"] == "DOI"`.
Python's `and` short-circuits, and the subscript raises `KeyError` when the
attribute is missing. -/
def identifierIsDoi (child : XmlElem) : Except String Bool :=
  if substrB "identifier" child.tag then
    match child.attrib.lookup "identifierType" with
    | none => .error "KeyError: identifierType"
    | some v => .ok (v == "DOI")
  else .ok false

/-- One iteration of the extraction loop `for child in root` of
`generate_citation`:

```python
if "identifier" in child.tag and child.attrib["identifierType"] == "DOI":
    doi = child.text
elif "creators" in child.tag:
    for creator in list(child):
        for x in list(creator):
            ...
elif "publisher" in child.tag:
    publisher = child.text
elif "publicationYear" in child.tag:
    publicationYear = child.text
``` -/
def processChild (st : ExtractState) (child : XmlElem) : Except String ExtractState := do
  let isDoi ← identifierIsDoi child
  if isDoi then
    pure { st with doi := child.text }
  else if substrB "creators" child.tag then
    pure (child.children.foldl
      (fun st creator => creator.children.foldl creatorStep st) st)
  else if substrB "publisher" child.tag then
    pure { st with publisher := child.text }
  else if substrB "publicationYear" child.tag then
    pure { st with publicationYear := child.text }
  else
    pure st

/-- The whole extraction loop of `generate_citation` over the children of the
document root, starting from the initial assignments
`doi = ""`, `publisher = ""`, `publicationYear = ""`,
`givenNames = []`, `familyNames = []`. -/
def extractMetadata (root : XmlElem) : Except String ExtractState :=
  root.children.foldlM processChild ⟨"", "", "", [], []⟩

/-- The initials heuristic applied to one given name:
`".".join([c for c in s if c.isupper()]) + "."`
(Lean's `Char.isUpper` covers the ASCII range; all inputs of interest are
ASCII). -/
def initialsOf (s : String) : String :=
  String.intercalate "." ((s.toList.filter Char.isUpper).map String.singleton) ++ "."

/-- The output dictionary of `generate_citation`. -/
structure CitationRecord where
  MIP : String
  Centre : String
  Model : String
  Experiment : String
  Version : String
  doi : String
  publisher : String
  publicationYear : String
  givenNames : List String
  familyNames : List String
  names : List String
  citation : String
deriving DecidableEq, Repr

/-- The CERA query URL built by `generate_citation`. -/
def ceraURL (MIP Centre Model Experiment : String) : String :=
  "https://cera-www.dkrz.de/WDCC/ui/cerasearch/cerarest/"
    ++ s!"exportcmip6?input=CMIP6.{MIP}.{Centre}.{Model}.{Experiment}"
    ++ "&wt=XML"

/-- The pure tail of `generate_citation`, from the extracted metadata to the
returned dictionary:

```python
initials = [".".join([c for c in s if c.isupper()]) + "." for s in givenNames]
names = [", ".join([a, b]) for a, b in zip(familyNames, initials)]
citation = (", ".join(names)
    + f" ({publicationYear}). {Centre} {Model} model output prepared for "
      f"CMIP6 {MIP} {Experiment}. {Version}. {publisher}. "
      f"https://doi.org/{doi}")
return { ... }
``` -/
def citationRecordOf (MIP Centre Model Experiment Version : String)
    (st : ExtractState) : CitationRecord :=
  let doi := st.doi
  let publisher := st.publisher
  let publicationYear := st.publicationYear
  let givenNames := st.givenNames
  let familyNames := st.familyNames
  let initials := givenNames.map initialsOf
  let names := List.zipWith (fun a b => String.intercalate ", " [a, b]) familyNames initials
  let citation := String.intercalate ", " names
    ++ s!" ({publicationYear}). {Centre} {Model} model output prepared for CMIP6 {MIP} {Experiment}. {Version}. {publisher}. https://doi.org/{doi}"
  {
    MIP := MIP
    Centre := Centre
    Model := Model
    Experiment := Experiment
    Version := Version
    doi := doi
    publisher := publisher
    publicationYear := publicationYear
    givenNames := givenNames
    familyNames := familyNames
    names := names
    citation := citation
  }

/-- `generate_citation` from `experimental/gen_data_citation.py`: build the
CERA query URL, fetch and parse the XML metadata, run the extraction loop,
and format the citation record.  The composite
`ET.fromstring(requests.get(url).text)` — network fetch plus XML parsing,
both outside this repository — is passed in as `fetchXml`, mapping the
query URL to the parsed document root. -/
def generate_citation (fetchXml : String → XmlElem)
    (MIP Centre Model Experiment Version : String) : Except String CitationRecord := do
  let url := ceraURL MIP Centre Model Experiment
  let root := fetchXml url
  let st ← extractMetadata root
  pure (citationRecordOf MIP Centre Model Experiment Version st)

/-- A row of the input table of `df_to_citations`: the five baspy identity
columns read off by `row.MIP, row.Centre, row.Model, row.Experiment,
row.Version`. -/
structure CatRow where
  MIP : String
  Centre : String
  Model : String
  Experiment : String
  Version : String
deriving DecidableEq, Repr

/-- `df_to_citations` from `experimental/gen_data_citation.py`:

```python
results = []
for row in df.itertuples():
    results.append(generate_citation(
        row.MIP, row.Centre, row.Model, row.Experiment, row.Version))
return pd.DataFrame(results)
```

The output `DataFrame` is modelled as the list of accumulated records; an
exception in any `generate_citation` call propagates. -/
def df_to_citations (fetchXml : String → XmlElem) (df : List CatRow) :
    Except String (List CitationRecord) :=
  df.foldlM (fun results row => do
    let r ← generate_citation fetchXml row.MIP row.Centre row.Model row.Experiment row.Version
    pure (results ++ [r])) []

/-! ## Concrete demonstration inputs -/

/-- A demonstration cmip5 backend returning a tag value. -/
def cmip5Demo : List CubeRow → Option Unit → Bool → Nat := fun _ _ _ => 0

/-- A demonstration happi backend returning a different tag value. -/
def happiDemo : List CubeRow → Option Unit → Bool → Nat := fun _ _ _ => 1

/-- A demonstration cmip5 backend returning a one-cube list. -/
def cmip5ListDemo : List CubeRow → Option Unit → Bool → List Nat := fun _ _ _ => [10]

/-- A demonstration happi backend returning a one-cube list. -/
def happiListDemo : List CubeRow → Option Unit → Bool → List Nat := fun _ _ _ => [20]

/-- A demonstration one-row cmip5 catalogue record. -/
def filt_cat₀ : List CubeRow := [⟨"a/b/cmip5/c"⟩]

/-! ## Derived notions used to state the citation claims -/

/-- Period-joined characters, characterized independently of
`String.intercalate`: the characters of the list interleaved with single
periods. -/
def dotJoin : List Char → String
  | [] => ""
  | [c] => String.singleton c
  | c :: c2 :: rest => String.singleton c ++ "." ++ dotJoin (c2 :: rest)

/-- `x` occurs in `s` as a contiguous substring. -/
def isSubstrOf (x s : String) : Prop := ∃ p q, s = p ++ x ++ q

/-- The citation format stated by the spec: the exact shape of the
`citation` string of a generated record, together with the substring
containments it entails. -/
def citationSpec (MIP Centre Model Experiment Version : String)
    (rec : CitationRecord) : Prop :=
  rec.citation
      = String.intercalate ", " rec.names ++ " (" ++ rec.publicationYear ++ "). "
        ++ Centre ++ " " ++ Model ++ " model output prepared for CMIP6 "
        ++ MIP ++ " " ++ Experiment ++ ". " ++ Version ++ ". "
        ++ rec.publisher ++ ". https://doi.org/" ++ rec.doi
    ∧ isSubstrOf Centre rec.citation
    ∧ isSubstrOf Model rec.citation
    ∧ isSubstrOf MIP rec.citation
    ∧ isSubstrOf Experiment rec.citation
    ∧ isSubstrOf Version rec.citation
    ∧ isSubstrOf rec.publisher rec.citation
    ∧ isSubstrOf ("https://doi.org/" ++ rec.doi) rec.citation

/-- The given-name texts one creator element contributes to the extraction,
in document order. -/
def creatorGivens (creator : XmlElem) : List String :=
  (creator.children.filter (fun x => substrB "givenName" x.tag)).map XmlElem.text

/-- The family-name texts one creator element contributes to the extraction:
children whose tag matches `familyName` and, per the `elif`, not
`givenName`. -/
def creatorFamilies (creator : XmlElem) : List String :=
  (creator.children.filter
    (fun x => !substrB "givenName" x.tag && substrB "familyName" x.tag)).map XmlElem.text

/-- The creator elements one root child feeds to the inner creator loop:
its children exactly when the creators branch of the dispatch is taken. -/
def childCreators (child : XmlElem) : List XmlElem :=
  match identifierIsDoi child with
  | .error _ => []
  | .ok true => []
  | .ok false => if substrB "creators" child.tag then child.children else []

/-- All creator elements the extraction loop processes for a document
root, in document order. -/
def rootCreators (root : XmlElem) : List XmlElem :=
  root.children.flatMap childCreators

/-! ## Concrete citation inputs -/

/-- The CERA metadata of the `generate_citation` docstring example
(MOHC HadGEM3-GC31-LL historical), as a parsed XML root. -/
def demoRoot : XmlElem := .mk "root" [] "" [
  .mk "identifier" [("identifierType", "DOI")] "10.22033/ESGF/CMIP6.6109" [],
  .mk "creators" [] "" [
    .mk "creator" [] "" [.mk "givenName" [] "Jeff" [], .mk "familyName" [] "Ridley" []],
    .mk "creator" [] "" [.mk "givenName" [] "Matthew" [], .mk "familyName" [] "Menary" []],
    .mk "creator" [] "" [.mk "givenName" [] "Till" [], .mk "familyName" [] "Kuhlbrodt" []],
    .mk "creator" [] "" [.mk "givenName" [] "Martin" [], .mk "familyName" [] "Andrews" []],
    .mk "creator" [] "" [.mk "givenName" [] "Tim" [], .mk "familyName" [] "Andrews" []]],
  .mk "publisher" [] "Earth System Grid Federation" [],
  .mk "publicationYear" [] "2019" []]

/-- A fetch oracle always answering with the demonstration metadata. -/
def demoFetch : String → XmlElem := fun _ => demoRoot

/-- The record `generate_citation` produces from the demonstration
metadata; it coincides with the example output in the source docstring. -/
def demoRec : CitationRecord :=
  { MIP := "CMIP"
    Centre := "MOHC"
    Model := "HadGEM3-GC31-LL"
    Experiment := "historical"
    Version := "v20190624"
    doi := "10.22033/ESGF/CMIP6.6109"
    publisher := "Earth System Grid Federation"
    publicationYear := "2019"
    givenNames := ["Jeff", "Matthew", "Till", "Martin", "Tim"]
    familyNames := ["Ridley", "Menary", "Kuhlbrodt", "Andrews", "Andrews"]
    names := ["Ridley, J.", "Menary, M.", "Kuhlbrodt, T.", "Andrews, M.", "Andrews, T."]
    citation := "Ridley, J., Menary, M., Kuhlbrodt, T., Andrews, M., Andrews, T. (2019). MOHC HadGEM3-GC31-LL model output prepared for CMIP6 CMIP historical. v20190624. Earth System Grid Federation. https://doi.org/10.22033/ESGF/CMIP6.6109" }

/-- Metadata whose sole creator carries a given name but no family name:
the unvalidated-pairing scenario. -/
def lopsidedRoot : XmlElem := .mk "root" [] "" [
  .mk "creators" [] "" [.mk "creator" [] "" [.mk "givenName" [] "Jeff" []]]]

/-- A fetch oracle answering with the lopsided metadata. -/
def lopsidedFetch : String → XmlElem := fun _ => lopsidedRoot

/-- The record `generate_citation` produces from the lopsided metadata:
one given name, no family name, and an empty `names` list. -/
def lopsidedRec : CitationRecord :=
  { MIP := "M"
    Centre := "C"
    Model := "Mo"
    Experiment := "E"
    Version := "V"
    doi := ""
    publisher := ""
    publicationYear := ""
    givenNames := ["Jeff"]
    familyNames := []
    names := []
    citation := " (). C Mo model output prepared for CMIP6 M E. V. . https://doi.org/" }

/-- A one-row demonstration input table for `df_to_citations`. -/
def demoDf : List CatRow :=
  [⟨"CMIP", "MOHC", "HadGEM3-GC31-LL", "historical", "v20190624"⟩]

/-- The output table `df_to_citations` produces from `demoDf` under
`demoFetch`. -/
def demoOut : List CitationRecord := [demoRec]

/-! ## Theorems about `_get_cubes.py` -/

/-- Claim C1 (counterexample): a record whose first-row `Path` segments
contain `cmip5` need not get the cmip5 backend's result: when the segments
also contain `happi`, the later `happi` check overwrites the cmip5 result,
so `get_cubes` does not return the cmip5 backend's value. -/
theorem claim1_counterexample :
    ("cmip5" ∈ splitSlash "a/cmip5/happi") ∧
    get_cubes cmip5Demo happiDemo [⟨"a/cmip5/happi"⟩] none true
      = .ok (happiDemo [⟨"a/cmip5/happi"⟩] none true) ∧
    get_cubes cmip5Demo happiDemo [⟨"a/cmip5/happi"⟩] none true
      ≠ .ok (cmip5Demo [⟨"a/cmip5/happi"⟩] none true) := by
  refine ⟨by decide, rfl, ?_⟩
  intro h
  exact absurd (Except.ok.inj h) (by decide)

/-- Claim C1 (amended): for a record whose first-row `Path` segments contain
`cmip5` and do not contain `happi`, `get_cubes` delegates to the cmip5
backend with the same arguments and returns its result unchanged; for a
record whose segments contain `happi`, it delegates to the happi backend
and returns its result unchanged. -/
theorem claim1_amended {γ α : Type} (b1 b2 : List CubeRow → Option γ → Bool → α)
    (row : CubeRow) (rest : List CubeRow) (constraints : Option γ) (verbose : Bool) :
    (("cmip5" ∈ splitSlash row.Path) →
      ("happi" ∉ splitSlash row.Path) →
      get_cubes b1 b2 (row :: rest) constraints verbose
        = .ok (b1 (row :: rest) constraints verbose)) ∧
    (("happi" ∈ splitSlash row.Path) →
      get_cubes b1 b2 (row :: rest) constraints verbose
        = .ok (b2 (row :: rest) constraints verbose)) := by
  constructor
  · intro hc hh
    simp [get_cubes, hc, hh]
  · intro hh
    simp [get_cubes, hh]

/-- Witness for the amended claim C1 at concrete inputs. -/
theorem claim1_amended_witness :
    get_cubes cmip5Demo happiDemo [⟨"a/b/cmip5/c"⟩] none true
      = .ok (cmip5Demo [⟨"a/b/cmip5/c"⟩] none true) ∧
    get_cubes cmip5Demo happiDemo [⟨"a/happi/b"⟩] none true
      = .ok (happiDemo [⟨"a/happi/b"⟩] none true) :=
  ⟨(claim1_amended cmip5Demo happiDemo ⟨"a/b/cmip5/c"⟩ [] none true).1
      (by decide) (by decide),
   (claim1_amended cmip5Demo happiDemo ⟨"a/happi/b"⟩ [] none true).2 (by decide)⟩

/-- Claim C2: on a record with exactly one row, `get_cube` delegates to
`get_cubes` with the same arguments and returns the first element of the
sequence `get_cubes` returns. -/
theorem claim2_single_row_delegates {γ β : Type}
    (b1 b2 : List CubeRow → Option γ → Bool → List β)
    (filt_cat : List CubeRow) (constraints : Option γ) (verbose : Bool)
    (c : β) (cs : List β)
    (hlen : filt_cat.length = 1)
    (hcubes : get_cubes b1 b2 filt_cat constraints verbose = .ok (c :: cs)) :
    get_cube b1 b2 filt_cat constraints verbose = .ok c := by
  simp [get_cube, hlen, hcubes]

/-- Witness for claim C2 at a concrete one-row record. -/
theorem claim2_witness :
    filt_cat₀.length = 1 ∧
    get_cubes cmip5ListDemo happiListDemo filt_cat₀ none true = .ok [10] ∧
    get_cube cmip5ListDemo happiListDemo filt_cat₀ none true = .ok 10 :=
  ⟨rfl, rfl,
   claim2_single_row_delegates cmip5ListDemo happiListDemo filt_cat₀ none true
     10 [] rfl rfl⟩

/-- Claim C3: `get_cube` on a zero-row record raises the descriptive
"no cubes specified" error, and on a record of two or more rows raises the
"more than one cube" error pointing at `get_cubes`; in neither case does it
return a cube. -/
theorem claim3_wrong_row_count_errors {γ β : Type}
    (b1 b2 : List CubeRow → Option γ → Bool → List β)
    (filt_cat : List CubeRow) (constraints : Option γ) (verbose : Bool) :
    (filt_cat.length = 0 →
      get_cube b1 b2 filt_cat constraints verbose
        = .error "Error: no cubes specified in catalogue.") ∧
    (2 ≤ filt_cat.length →
      get_cube b1 b2 filt_cat constraints verbose
        = .error "Error: more than one cube present.  Try get_cubes instead") := by
  constructor
  · intro h0
    simp [get_cube, h0]
  · intro h2
    have h1 : filt_cat.length ≠ 1 := by omega
    have hgt : filt_cat.length > 1 := by omega
    simp [get_cube, h1, hgt]

/-- Witness for claim C3 at an empty record and at a two-row record. -/
theorem claim3_witness :
    get_cube cmip5ListDemo happiListDemo [] none true
      = .error "Error: no cubes specified in catalogue." ∧
    get_cube cmip5ListDemo happiListDemo [⟨"a/b/cmip5/c"⟩, ⟨"d"⟩] none true
      = .error "Error: more than one cube present.  Try get_cubes instead" :=
  ⟨(claim3_wrong_row_count_errors cmip5ListDemo happiListDemo [] none true).1 rfl,
   (claim3_wrong_row_count_errors cmip5ListDemo happiListDemo
      [⟨"a/b/cmip5/c"⟩, ⟨"d"⟩] none true).2 (by decide)⟩

/-- Claim C8: when the first row's `Path` segments contain neither `cmip5`
nor `happi`, no backend is selected and `get_cubes` has no defined cube
result: the local `cubes` is never assigned and the `return` raises
`NameError`, for every choice of backends. -/
theorem claim8_unmatched_family_undefined {γ α : Type}
    (b1 b2 : List CubeRow → Option γ → Bool → α)
    (row : CubeRow) (rest : List CubeRow) (constraints : Option γ) (verbose : Bool)
    (hc : "cmip5" ∉ splitSlash row.Path)
    (hh : "happi" ∉ splitSlash row.Path) :
    get_cubes b1 b2 (row :: rest) constraints verbose
      = .error "NameError: name cubes is not defined" := by
  simp [get_cubes, hc, hh]

/-- Witness for claim C8 at a concrete unmatched path. -/
theorem claim8_witness :
    get_cubes cmip5Demo happiDemo [⟨"a/xx/c"⟩] none true
      = .error "NameError: name cubes is not defined" :=
  claim8_unmatched_family_undefined cmip5Demo happiDemo ⟨"a/xx/c"⟩ [] none true
    (by decide) (by decide)

/-- Claim C9: the family tags are checked sequentially and the later
`happi` check overwrites the cmip5 result, so on a record whose first-row
`Path` segments contain both tags `get_cubes` returns the happi backend's
result. -/
theorem claim9_later_check_overwrites {γ α : Type}
    (b1 b2 : List CubeRow → Option γ → Bool → α)
    (row : CubeRow) (rest : List CubeRow) (constraints : Option γ) (verbose : Bool)
    (_hc : "cmip5" ∈ splitSlash row.Path)
    (hh : "happi" ∈ splitSlash row.Path) :
    get_cubes b1 b2 (row :: rest) constraints verbose
      = .ok (b2 (row :: rest) constraints verbose) := by
  simp [get_cubes, hh]

/-- Witness for claim C9 at a path containing both family tags. -/
theorem claim9_witness :
    get_cubes cmip5Demo happiDemo [⟨"x/cmip5/y/happi"⟩] none true
      = .ok (happiDemo [⟨"x/cmip5/y/happi"⟩] none true) :=
  claim9_later_check_overwrites cmip5Demo happiDemo ⟨"x/cmip5/y/happi"⟩ [] none true
    (by decide) (by decide)

/-! ## Theorems about `experimental/gen_data_citation.py` -/

theorem intercalate_go_acc (s : String) (xs : List String) :
    ∀ a, String.intercalate.go a s xs = a ++ String.intercalate.go "" s xs := by
  induction xs with
  | nil => intro a; simp [String.intercalate.go]
  | cons b bs ih =>
    intro a
    rw [String.intercalate.go, String.intercalate.go, ih, ih ("" ++ s ++ b)]
    simp [String.append_assoc]

theorem intercalate_cons_cons (s a b : String) (xs : List String) :
    String.intercalate s (a :: b :: xs) = a ++ s ++ String.intercalate s (b :: xs) := by
  show String.intercalate.go a s (b :: xs) = a ++ s ++ String.intercalate.go b s xs
  rw [String.intercalate.go, intercalate_go_acc, intercalate_go_acc s xs b]
  simp [String.append_assoc]

theorem intercalate_singletons (l : List Char) :
    String.intercalate "." (l.map String.singleton) = dotJoin l := by
  induction l with
  | nil => rfl
  | cons c rest ih =>
    cases rest with
    | nil => rfl
    | cons c2 rest2 =>
      rw [dotJoin, ← ih, List.map_cons, List.map_cons, intercalate_cons_cons,
        ← List.map_cons]

/-- Claim C5 (counterexample): the initials heuristic does not concatenate
the uppercase characters bare: on `"Jean-Paul"` it yields `"J.P."`,
not `"JP."`, because the uppercase characters are joined with `"."`. -/
theorem claim5_counterexample :
    initialsOf "Jean-Paul" = "J.P." ∧ initialsOf "Jean-Paul" ≠ "JP." := by
  constructor
  · decide
  · decide

/-- Claim C5 (amended): the initials formatting of a given name is every
uppercase character found anywhere in the name, in order, joined with
period separators and followed by a trailing period; in particular
`"Jean-Paul"` is formatted as `"J.P."`. -/
theorem claim5_amended (s : String) :
    initialsOf s = dotJoin (s.toList.filter Char.isUpper) ++ "." ∧
    initialsOf "Jean-Paul" = "J.P." := by
  constructor
  · rw [initialsOf, intercalate_singletons]
  · decide

/-- Claim C6: the initials formatting of `"Jeff"` yields `"J."`, and that
of `"J.T."` yields `"J.T."` — no double-period collapsing; a trailing
period is appended after the last uppercase character. -/
theorem claim6_initials_examples :
    initialsOf "Jeff" = "J." ∧ initialsOf "J.T." = "J.T." := by
  constructor
  · decide
  · decide

theorem toString_str (s : String) : toString s = s := rfl

theorem generate_citation_ok_iff (fetchXml : String → XmlElem)
    (MIP Centre Model Experiment Version : String) (rec : CitationRecord) :
    generate_citation fetchXml MIP Centre Model Experiment Version = .ok rec ↔
    ∃ st, extractMetadata (fetchXml (ceraURL MIP Centre Model Experiment)) = .ok st ∧
      rec = citationRecordOf MIP Centre Model Experiment Version st := by
  unfold generate_citation
  cases hst : extractMetadata (fetchXml (ceraURL MIP Centre Model Experiment)) with
  | error e => simp [hst, Bind.bind, Except.bind]
  | ok st =>
    simp [hst, Bind.bind, Except.bind, pure, Except.pure]
    constructor
    · intro h; exact h.symm
    · intro h; exact h.symm

/-- Claim C4: every record `generate_citation` returns carries the exact
citation string
`"<joined names> (<publicationYear>). <Centre> <Model> model output prepared
for CMIP6 <MIP> <Experiment>. <Version>. <publisher>.
https://doi.org/<doi>"`, and therefore contains Centre, Model, MIP,
Experiment, Version, publisher and the doi-prefixed URL as exact
substrings. -/
theorem claim4_citation_format (fetchXml : String → XmlElem)
    (MIP Centre Model Experiment Version : String) (rec : CitationRecord)
    (h : generate_citation fetchXml MIP Centre Model Experiment Version = .ok rec) :
    citationSpec MIP Centre Model Experiment Version rec := by
  obtain ⟨st, _hst, hrec⟩ :=
    (generate_citation_ok_iff fetchXml MIP Centre Model Experiment Version rec).mp h
  subst hrec
  dsimp only [citationSpec, citationRecordOf, isSubstrOf]
  set A := String.intercalate ", "
    (List.zipWith (fun a b => String.intercalate ", " [a, b]) st.familyNames
      (st.givenNames.map initialsOf)) with hA
  have hcit : A ++
      (toString " (" ++ toString st.publicationYear ++ toString "). " ++ toString Centre
        ++ toString " " ++ toString Model ++ toString " model output prepared for CMIP6 "
        ++ toString MIP ++ toString " " ++ toString Experiment ++ toString ". "
        ++ toString Version ++ toString ". " ++ toString st.publisher
        ++ toString ". https://doi.org/" ++ toString st.doi ++ toString "")
      = A ++ " (" ++ st.publicationYear ++ "). " ++ Centre ++ " " ++ Model
        ++ " model output prepared for CMIP6 " ++ MIP ++ " " ++ Experiment ++ ". "
        ++ Version ++ ". " ++ st.publisher ++ ". https://doi.org/" ++ st.doi := by
    simp only [toString_str, String.append_empty, String.append_assoc]
  rw [hcit]
  refine ⟨rfl, ?_, ?_, ?_, ?_, ?_, ?_, ?_⟩
  · exact ⟨A ++ " (" ++ st.publicationYear ++ "). ",
      " " ++ Model ++ " model output prepared for CMIP6 " ++ MIP ++ " " ++ Experiment
        ++ ". " ++ Version ++ ". " ++ st.publisher ++ ". https://doi.org/" ++ st.doi,
      by simp [String.append_assoc]⟩
  · exact ⟨A ++ " (" ++ st.publicationYear ++ "). " ++ Centre ++ " ",
      " model output prepared for CMIP6 " ++ MIP ++ " " ++ Experiment
        ++ ". " ++ Version ++ ". " ++ st.publisher ++ ". https://doi.org/" ++ st.doi,
      by simp [String.append_assoc]⟩
  · exact ⟨A ++ " (" ++ st.publicationYear ++ "). " ++ Centre ++ " " ++ Model
        ++ " model output prepared for CMIP6 ",
      " " ++ Experiment ++ ". " ++ Version ++ ". " ++ st.publisher
        ++ ". https://doi.org/" ++ st.doi,
      by simp [String.append_assoc]⟩
  · exact ⟨A ++ " (" ++ st.publicationYear ++ "). " ++ Centre ++ " " ++ Model
        ++ " model output prepared for CMIP6 " ++ MIP ++ " ",
      ". " ++ Version ++ ". " ++ st.publisher ++ ". https://doi.org/" ++ st.doi,
      by simp [String.append_assoc]⟩
  · exact ⟨A ++ " (" ++ st.publicationYear ++ "). " ++ Centre ++ " " ++ Model
        ++ " model output prepared for CMIP6 " ++ MIP ++ " " ++ Experiment ++ ". ",
      ". " ++ st.publisher ++ ". https://doi.org/" ++ st.doi,
      by simp [String.append_assoc]⟩
  · exact ⟨A ++ " (" ++ st.publicationYear ++ "). " ++ Centre ++ " " ++ Model
        ++ " model output prepared for CMIP6 " ++ MIP ++ " " ++ Experiment ++ ". "
        ++ Version ++ ". ",
      ". https://doi.org/" ++ st.doi,
      by simp [String.append_assoc]⟩
  · refine ⟨A ++ " (" ++ st.publicationYear ++ "). " ++ Centre ++ " " ++ Model
        ++ " model output prepared for CMIP6 " ++ MIP ++ " " ++ Experiment ++ ". "
        ++ Version ++ ". " ++ st.publisher ++ ". ", "", ?_⟩
    have hmerge : (". " : String) ++ ("https://doi.org/" ++ st.doi)
        = ". https://doi.org/" ++ st.doi := by
      rw [← String.append_assoc]
      rfl
    simp only [String.append_empty, String.append_assoc]
    rw [hmerge]

/-- Witness for claim C4 on the docstring example metadata. -/
theorem claim4_witness :
    generate_citation demoFetch "CMIP" "MOHC" "HadGEM3-GC31-LL" "historical" "v20190624"
      = .ok demoRec ∧
    citationSpec "CMIP" "MOHC" "HadGEM3-GC31-LL" "historical" "v20190624" demoRec :=
  ⟨rfl,
   claim4_citation_format demoFetch "CMIP" "MOHC" "HadGEM3-GC31-LL" "historical"
     "v20190624" demoRec rfl⟩

theorem intercalate_pair (a b : String) :
    String.intercalate ", " [a, b] = a ++ ", " ++ b := rfl

theorem creatorStep_fold (xs : List XmlElem) : ∀ st : ExtractState,
    xs.foldl creatorStep st
      = { st with
          givenNames := st.givenNames
            ++ (xs.filter (fun x => substrB "givenName" x.tag)).map XmlElem.text,
          familyNames := st.familyNames
            ++ (xs.filter
                (fun x => !substrB "givenName" x.tag && substrB "familyName" x.tag)).map
              XmlElem.text } := by
  induction xs with
  | nil => intro st; simp
  | cons x xs ih =>
    intro st
    rw [List.foldl_cons, ih]
    by_cases hg : substrB "givenName" x.tag
    · simp [creatorStep, hg, List.filter_cons]
    · by_cases hf : substrB "familyName" x.tag
      · simp [creatorStep, hg, hf, List.filter_cons]
      · simp [creatorStep, hg, hf, List.filter_cons]

theorem creatorsFold (creators : List XmlElem) : ∀ st : ExtractState,
    creators.foldl (fun st creator => creator.children.foldl creatorStep st) st
      = { st with
          givenNames := st.givenNames ++ creators.flatMap creatorGivens,
          familyNames := st.familyNames ++ creators.flatMap creatorFamilies } := by
  induction creators with
  | nil => intro st; simp
  | cons c cs ih =>
    intro st
    rw [List.foldl_cons, creatorStep_fold, ih]
    simp [creatorGivens, creatorFamilies, List.append_assoc]

theorem processChild_ok (st st' : ExtractState) (child : XmlElem)
    (h : processChild st child = .ok st') :
    st'.givenNames = st.givenNames ++ (childCreators child).flatMap creatorGivens ∧
    st'.familyNames = st.familyNames ++ (childCreators child).flatMap creatorFamilies := by
  unfold processChild at h
  unfold childCreators
  cases hid : identifierIsDoi child with
  | error e =>
    rw [hid] at h
    simp [Bind.bind, Except.bind] at h
  | ok b =>
    rw [hid] at h
    cases b with
    | true =>
      simp only [Bind.bind, Except.bind, if_pos] at h
      simp only [pure, Except.pure, Except.ok.injEq] at h
      subst h
      simp
    | false =>
      simp only [Bind.bind, Except.bind, Bool.false_eq_true, if_false] at h
      by_cases hcr : substrB "creators" child.tag
      · rw [if_pos hcr] at h
        simp only [pure, Except.pure, Except.ok.injEq] at h
        subst h
        rw [creatorsFold]
        simp [hcr]
      · rw [if_neg hcr] at h
        by_cases hp : substrB "publisher" child.tag
        · rw [if_pos hp] at h
          simp only [pure, Except.pure, Except.ok.injEq] at h
          subst h
          simp [hcr]
        · rw [if_neg hp] at h
          by_cases hy : substrB "publicationYear" child.tag
          · rw [if_pos hy] at h
            simp only [pure, Except.pure, Except.ok.injEq] at h
            subst h
            simp [hcr]
          · rw [if_neg hy] at h
            simp only [pure, Except.pure, Except.ok.injEq] at h
            subst h
            simp [hcr]

theorem extract_fold_ok (children : List XmlElem) : ∀ st st' : ExtractState,
    List.foldlM processChild st children = .ok st' →
    st'.givenNames = st.givenNames
      ++ (children.flatMap childCreators).flatMap creatorGivens ∧
    st'.familyNames = st.familyNames
      ++ (children.flatMap childCreators).flatMap creatorFamilies := by
  induction children with
  | nil =>
    intro st st' h
    simp only [List.foldlM_nil, pure, Except.pure, Except.ok.injEq] at h
    subst h
    simp
  | cons c cs ih =>
    intro st st' h
    rw [List.foldlM_cons] at h
    cases hc : processChild st c with
    | error e =>
      rw [hc] at h
      simp [Bind.bind, Except.bind] at h
    | ok st1 =>
      rw [hc] at h
      simp only [Bind.bind, Except.bind] at h
      obtain ⟨h1g, h1f⟩ := processChild_ok st st1 c hc
      obtain ⟨h2g, h2f⟩ := ih st1 st' h
      constructor
      · rw [h2g, h1g]; simp [List.append_assoc]
      · rw [h2f, h1f]; simp [List.append_assoc]

theorem extractMetadata_ok (root : XmlElem) (st : ExtractState)
    (h : extractMetadata root = .ok st) :
    st.givenNames = (rootCreators root).flatMap creatorGivens ∧
    st.familyNames = (rootCreators root).flatMap creatorFamilies := by
  obtain ⟨hg, hf⟩ := extract_fold_ok root.children ⟨"", "", "", [], []⟩ st h
  exact ⟨by simpa [rootCreators] using hg, by simpa [rootCreators] using hf⟩

theorem flatMap_of_length_one {α β : Type} (g : α → List β) (d : β) :
    ∀ l : List α, (∀ c ∈ l, (g c).length = 1) →
      l.flatMap g = l.map (fun c => (g c).headD d) := by
  intro l
  induction l with
  | nil => intro _; simp
  | cons c cs ih =>
    intro h
    rw [List.flatMap_cons, List.map_cons, ih (fun x hx => h x (List.mem_cons_of_mem c hx))]
    have h1 := h c (List.mem_cons_self c cs)
    cases hg : g c with
    | nil => rw [hg] at h1; simp at h1
    | cons b bs =>
      rw [hg] at h1
      cases bs with
      | nil => simp
      | cons b2 bs2 => simp at h1

/-- Claim C7 (counterexample): `generate_citation` performs no pairing
validation: from metadata whose sole creator has a given name but no family
name it returns a record with `givenNames` of length 1, `familyNames` of
length 0, and an empty `names` list — not one entry per creator. -/
theorem claim7_counterexample :
    generate_citation lopsidedFetch "M" "C" "Mo" "E" "V" = .ok lopsidedRec ∧
    lopsidedRec.givenNames.length ≠ lopsidedRec.familyNames.length ∧
    lopsidedRec.names = [] := by
  refine ⟨rfl, by decide, rfl⟩

/-- Claim C7 (amended): when every creator element processed by the
extraction loop contributes exactly one given name and one family name, the
returned record's `givenNames` and `familyNames` have the same length and
are positionally paired by creator index — the i-th entry of each comes
from the i-th creator — and `names` holds one
`"<FamilyName>, <Initials>"` entry per creator, built from that same
creator's pair. -/
theorem claim7_amended (fetchXml : String → XmlElem)
    (MIP Centre Model Experiment Version : String) (rec : CitationRecord)
    (hcreators : ∀ creator ∈ rootCreators (fetchXml (ceraURL MIP Centre Model Experiment)),
      (creatorGivens creator).length = 1 ∧ (creatorFamilies creator).length = 1)
    (h : generate_citation fetchXml MIP Centre Model Experiment Version = .ok rec) :
    rec.givenNames.length = rec.familyNames.length ∧
    rec.givenNames
      = (rootCreators (fetchXml (ceraURL MIP Centre Model Experiment))).map
          (fun c => (creatorGivens c).headD "") ∧
    rec.familyNames
      = (rootCreators (fetchXml (ceraURL MIP Centre Model Experiment))).map
          (fun c => (creatorFamilies c).headD "") ∧
    rec.names
      = (rootCreators (fetchXml (ceraURL MIP Centre Model Experiment))).map
          (fun c => (creatorFamilies c).headD "" ++ ", "
            ++ initialsOf ((creatorGivens c).headD "")) := by
  obtain ⟨st, hst, hrec⟩ :=
    (generate_citation_ok_iff fetchXml MIP Centre Model Experiment Version rec).mp h
  subst hrec
  obtain ⟨hg, hf⟩ := extractMetadata_ok _ st hst
  rw [flatMap_of_length_one creatorGivens "" _ (fun c hc => (hcreators c hc).1)] at hg
  rw [flatMap_of_length_one creatorFamilies "" _ (fun c hc => (hcreators c hc).2)] at hf
  dsimp only [citationRecordOf]
  refine ⟨?_, hg, hf, ?_⟩
  · rw [hg, hf]; simp
  · rw [hg, hf, List.map_map, List.zipWith_map, List.zipWith_same]
    simp [intercalate_pair, Function.comp]

/-- Witness for the amended claim C7 on the docstring example metadata. -/
theorem claim7_witness :
    demoRec.givenNames.length = demoRec.familyNames.length ∧
    demoRec.givenNames = (rootCreators demoRoot).map (fun c => (creatorGivens c).headD "") ∧
    demoRec.familyNames
      = (rootCreators demoRoot).map (fun c => (creatorFamilies c).headD "") ∧
    demoRec.names
      = (rootCreators demoRoot).map
          (fun c => (creatorFamilies c).headD "" ++ ", "
            ++ initialsOf ((creatorGivens c).headD "")) :=
  claim7_amended demoFetch "CMIP" "MOHC" "HadGEM3-GC31-LL" "historical" "v20190624"
    demoRec (by decide) rfl

theorem df_fold_ok (fetchXml : String → XmlElem) :
    ∀ (df : List CatRow) (acc out : List CitationRecord),
      df.foldlM (fun results row => do
        let r ← generate_citation fetchXml row.MIP row.Centre row.Model
          row.Experiment row.Version
        pure (results ++ [r])) acc = .ok out →
      out.length = acc.length + df.length ∧
      (∀ i, i < acc.length → out[i]? = acc[i]?) ∧
      (∀ i (hi : i < df.length),
        (out[acc.length + i]?).map Except.ok
          = some (generate_citation fetchXml (df.get ⟨i, hi⟩).MIP (df.get ⟨i, hi⟩).Centre
              (df.get ⟨i, hi⟩).Model (df.get ⟨i, hi⟩).Experiment (df.get ⟨i, hi⟩).Version)) := by
  intro df
  induction df with
  | nil =>
    intro acc out h
    simp only [List.foldlM_nil, pure, Except.pure, Except.ok.injEq] at h
    subst h
    refine ⟨by simp, fun i _ => rfl, fun i hi => by simp at hi⟩
  | cons row rows ih =>
    intro acc out h
    rw [List.foldlM_cons] at h
    cases hr : generate_citation fetchXml row.MIP row.Centre row.Model
        row.Experiment row.Version with
    | error e =>
      rw [hr] at h
      simp [Bind.bind, Except.bind] at h
    | ok r =>
      rw [hr] at h
      simp only [Bind.bind, Except.bind, pure, Except.pure] at h
      obtain ⟨hlen, hpre, helem⟩ := ih (acc ++ [r]) out h
      refine ⟨by simp at hlen ⊢; omega, ?_, ?_⟩
      · intro i hi
        rw [hpre i (by simp; omega)]
        exact List.getElem?_append_left hi
      · intro i hi
        cases i with
        | zero =>
          have h0 := hpre acc.length (by simp)
          rw [Nat.add_zero, h0, List.getElem?_append_right (Nat.le_refl _)]
          simp [hr]
        | succ j =>
          have hj := helem j (by simpa using Nat.lt_of_succ_lt_succ hi)
          rw [show acc.length + (j + 1) = (acc ++ [r]).length + j by simp; omega]
          rw [hj]
          rfl

/-- Claim C10: on an N-row input table, `df_to_citations` produces an
N-row output in the same order, whose i-th row is exactly what a direct
`generate_citation` call on the i-th input row's five identity fields
produces. -/
theorem claim10_row_mapping (fetchXml : String → XmlElem) (df : List CatRow)
    (out : List CitationRecord)
    (h : df_to_citations fetchXml df = .ok out) :
    out.length = df.length ∧
    ∀ i (hi : i < df.length) (hi' : i < out.length),
      generate_citation fetchXml (df.get ⟨i, hi⟩).MIP (df.get ⟨i, hi⟩).Centre
        (df.get ⟨i, hi⟩).Model (df.get ⟨i, hi⟩).Experiment (df.get ⟨i, hi⟩).Version
        = .ok (out.get ⟨i, hi'⟩) := by
  unfold df_to_citations at h
  obtain ⟨hlen, _, helem⟩ := df_fold_ok fetchXml df [] out h
  refine ⟨by simpa using hlen, ?_⟩
  intro i hi hi'
  have hx := helem i hi
  rw [show (([] : List CitationRecord).length + i) = i from by simp] at hx
  rw [List.getElem?_eq_getElem hi'] at hx
  rw [Option.map_some'] at hx
  exact (Option.some.inj hx).symm

/-- Witness for claim C10 on a concrete one-row table. -/
theorem claim10_witness :
    df_to_citations demoFetch demoDf = .ok demoOut ∧ demoOut.length = demoDf.length :=
  ⟨rfl, (claim10_row_mapping demoFetch demoDf demoOut rfl).1⟩

end Baspy
